import Mathlib

/-!
Verification of the errx repository (structured errors for Go with
gRPC / Connect / HTTP Problem-Details adapters).

The Go sources are shallowly embedded: the error-chain value model
(`errx.Error`, `errx.SentinelError`, foreign Go errors) becomes the
inductive `GoError`; the package-level code tables of `herr`, `gerr`
and `cerr` become association lists; `errors.As`-based chain walks
(`CodeOf`, `Fields`, `DetailsOf`) become structural recursions that
mirror Go's unwrap semantics (`errors.As` inspects the error itself
first and then unwraps through every error exposing `Unwrap`).
-/

namespace Errx

/-! ## slog-style structured fields (src/unnamed/part_002, argsToAttrs) -/

/-- The payload of a `slog.Attr` value.  Only string payloads are
distinguished; every other Go value is opaque to errx. -/
inductive SlogValue where
  | str (s : String)
  | otherValue
deriving DecidableEq

/-- A `slog.Attr`: one key/value field attached to an error. -/
structure Attr where
  key : String
  value : SlogValue
deriving DecidableEq

/-- One element of the variadic `args ...any` accepted by `New`, `Wrap`
and `With`: either an already-built `slog.Attr`, a string (candidate
key), or any other value. -/
inductive Arg where
  | attr (a : Attr)
  | str (s : String)
  | otherValue
deriving DecidableEq

/-- The `slog.Any` payload made from an argument used in value position. -/
def Arg.toValue : Arg → SlogValue
  | .str s => .str s
  | _ => .otherValue

/-- `argsToAttrs` from src/unnamed/part_002: alternating key/value pairs
or `slog.Attr` values; a lone or non-string key becomes `!BADKEY`. -/
def argsToAttrs : List Arg → List Attr
  | [] => []
  | .attr a :: rest => a :: argsToAttrs rest
  | .str v :: x :: rest => ⟨v, x.toValue⟩ :: argsToAttrs rest
  | [.str v] => [⟨"!BADKEY", .str v⟩]
  | .otherValue :: rest => ⟨"!BADKEY", .otherValue⟩ :: argsToAttrs rest

/-! ## Detail objects (src/details.go) -/

/-- `errx.BadRequestFieldViolation`. -/
structure BadRequestFieldViolation where
  field : String
  description : String
deriving DecidableEq

/-- `errx.PreconditionViolation`. -/
structure PreconditionViolation where
  type_ : String
  subject : String
  description : String
deriving DecidableEq

/-- A wire-level `google.rpc` detail proto (`errdetails.*`), as carried
by a gRPC status or a Connect error.  `other` stands for any further
caller-supplied proto message, identified by an opaque tag. -/
inductive ProtoDetail where
  | badRequest (fieldViolations : List BadRequestFieldViolation)
  | preconditionFailure (violations : List PreconditionViolation)
  | resourceInfo (resourceType resourceName owner description : String)
  | errorInfo (reason domain : String) (metadata : List (String × String))
  | localizedMessage (locale message : String)
  | other (tag : String)
deriving DecidableEq

/-- A detail object stored on an `errx.Error` (Go type `any`): one of
the canonical errx detail structs, a caller-supplied proto message, or
any other opaque value (dropped by every converter). -/
inductive Detail where
  | badRequestDetail (violations : List BadRequestFieldViolation)
  | preconditionFailureDetail (violations : List PreconditionViolation)
  | resourceInfoDetail (resourceType resourceName owner description : String)
  | errorInfoDetail (reason domain : String) (metadata : List (String × String))
  | proto (p : ProtoDetail)
  | otherValue (tag : String)
deriving DecidableEq

/-! ## The error-chain value model -/

/-- A Go `error` value as seen by errx:
`nil` (no error), an `*errx.Error` node, an `*errx.SentinelError`,
or a foreign error (any other type).  A foreign error's `cause` is
what `errors.Unwrap` yields; `.nil` means it does not unwrap. -/
inductive GoError where
  | nil
  | errx (msg code : String) (fields : List Attr) (details : List Detail)
      (stack : Bool) (cause : GoError)
  | sentinel (msg code : String)
  | foreign (msg : String) (cause : GoError)
deriving DecidableEq

/-- `errx.New`: a fresh node with message and fields, no code or cause. -/
def New (msg : String) (args : List Arg) : GoError :=
  .errx msg "" (argsToAttrs args) [] false .nil

/-- `errx.Wrap`: wraps a cause with fields; returns nil if the cause is nil. -/
def Wrap (err : GoError) (args : List Arg) : GoError :=
  if err = .nil then .nil
  else .errx "" "" (argsToAttrs args) [] false err

/-- `errx.Wrapf`: wraps a cause with an (already formatted) message;
returns nil if the cause is nil. -/
def Wrapf (err : GoError) (formatted : String) : GoError :=
  if err = .nil then .nil
  else .errx formatted "" [] [] false err

/-- `(*Error).With`: copy with additional fields appended.  The method
only exists on `*errx.Error`; the remaining cases are unreachable. -/
def GoError.With : GoError → List Arg → GoError
  | .errx m c f d s cause, args => .errx m c (f ++ argsToAttrs args) d s cause
  | e, _ => e

/-- `(*Error).WithCode`: copy with the code set. -/
def GoError.WithCode : GoError → String → GoError
  | .errx m _ f d s cause, c => .errx m c f d s cause
  | e, _ => e

/-- `(*Error).WithDetails`: copy with detail objects appended. -/
def GoError.WithDetails : GoError → List Detail → GoError
  | .errx m c f d s cause, ds => .errx m c f (d ++ ds) s cause
  | e, _ => e

/-- `(*Error).WithStack`: copy with a freshly captured stack. -/
def GoError.WithStack : GoError → GoError
  | .errx m c f d _ cause => .errx m c f d true cause
  | e => e

/-- `Error()` rendering (src/unnamed/part_002): empty message with a
cause renders the cause; no cause renders the message; otherwise
`message + ": " + cause.Error()`.  Sentinels and foreign errors render
their own message. -/
def errorString : GoError → String
  | .nil => ""
  | .errx msg _ _ _ _ cause =>
      if msg = "" ∧ cause ≠ .nil then errorString cause
      else if cause = .nil then msg
      else msg ++ ": " ++ errorString cause
  | .sentinel msg _ => msg
  | .foreign msg _ => msg

/-- `errx.CodeOf`: `errors.As(err, &c)` finds the first `Coder` in the
unwrap chain and returns its `Code()`.  For an `*errx.Error` the found
node's `Code()` method (own code if non-empty, else `CodeOf(cause)`) is
inlined here; sentinels return their fixed code; foreign errors are
unwrapped; nil (or no `Coder` found) yields the empty code. -/
def CodeOf : GoError → String
  | .nil => ""
  | .errx _ code _ _ _ cause => if code ≠ "" then code else CodeOf cause
  | .sentinel _ code => code
  | .foreign _ cause => CodeOf cause

/-- `(*Error).Code`: own code if non-empty, else `CodeOf(cause)`.
Only `*errx.Error` and `*errx.SentinelError` have this method; the
remaining cases are unreachable. -/
def GoError.Code : GoError → String
  | .errx _ code _ _ _ cause => if code ≠ "" then code else CodeOf cause
  | .sentinel _ code => code
  | _ => ""

/-- `errx.Fields`: loop `errors.As(err, &ex)`; on success append the
found node's own fields and continue from its cause, else stop.
`errors.As` reaches an `*errx.Error` through any chain of foreign
errors that unwrap; it fails on nil, on a sentinel (no `Unwrap`), and
on a foreign error whose chain contains no `*errx.Error`. -/
def Fields : GoError → List Attr
  | .nil => []
  | .errx _ _ fields _ _ cause => fields ++ Fields cause
  | .sentinel _ _ => []
  | .foreign _ cause => Fields cause

/-- `errx.DetailsOf`: same walk as `Fields`, collecting detail objects. -/
def DetailsOf : GoError → List Detail
  | .nil => []
  | .errx _ _ _ details _ cause => details ++ DetailsOf cause
  | .sentinel _ _ => []
  | .foreign _ cause => DetailsOf cause

/-! ## Code constants (unnamed Go source, `type Code string` block) -/

def Canceled : String := "canceled"

def Unknown : String := "unknown"

def InvalidArgument : String := "invalid_argument"

def DeadlineExceeded : String := "deadline_exceeded"

def NotFound : String := "not_found"

def AlreadyExists : String := "already_exists"

def PermissionDenied : String := "permission_denied"

def ResourceExhausted : String := "resource_exhausted"

def FailedPrecondition : String := "failed_precondition"

def Aborted : String := "aborted"

def OutOfRange : String := "out_of_range"

def Unimplemented : String := "unimplemented"

def Internal : String := "internal"

def Unavailable : String := "unavailable"

def DataLoss : String := "data_loss"

def Unauthenticated : String := "unauthenticated"

/-- The 16 built-in (well-known) codes. -/
def wellKnownCodes : List String :=
  [Canceled, Unknown, InvalidArgument, DeadlineExceeded, NotFound,
   AlreadyExists, PermissionDenied, ResourceExhausted, FailedPrecondition,
   Aborted, OutOfRange, Unimplemented, Internal, Unavailable, DataLoss,
   Unauthenticated]

/-- Association-list lookup, modelling a Go map read `m[k]`. -/
def assocLookup {α β : Type} [DecidableEq α] : List (α × β) → α → Option β
  | [], _ => none
  | (k, v) :: rest, k' => if k = k' then some v else assocLookup rest k'

/-! ## herr: HTTP adapter (src/herr/herr.go) -/

/-- The `errxToHTTP` map: errx code → HTTP status. -/
def errxToHTTP : List (String × Nat) :=
  [(InvalidArgument, 400), (OutOfRange, 400), (Unauthenticated, 401),
   (PermissionDenied, 403), (NotFound, 404), (AlreadyExists, 409),
   (Aborted, 409), (FailedPrecondition, 412), (ResourceExhausted, 429),
   (Canceled, 499), (Internal, 500), (Unknown, 500), (DataLoss, 500),
   (Unimplemented, 501), (Unavailable, 503), (DeadlineExceeded, 504)]

/-- The `httpToErrx` map: HTTP status → errx code. -/
def httpToErrx : List (Nat × String) :=
  [(400, InvalidArgument), (401, Unauthenticated), (403, PermissionDenied),
   (404, NotFound), (409, AlreadyExists), (412, FailedPrecondition),
   (429, ResourceExhausted), (499, Canceled), (500, Internal),
   (501, Unimplemented), (503, Unavailable), (504, DeadlineExceeded)]

/-- `herr.ToHTTPStatus`: unmapped codes fall back to 500. -/
def ToHTTPStatus (c : String) : Nat :=
  match assocLookup errxToHTTP c with
  | some s => s
  | none => 500

/-- `herr.ToErrxCode`: unmapped statuses fall back to `errx.Unknown`. -/
def herrToErrxCode (status : Nat) : String :=
  match assocLookup httpToErrx status with
  | some c => c
  | none => Unknown

/-- Modelled from the spec: the Go standard library's
`net/http.StatusText` (an external collaborator, not part of this
repository), restricted to the statuses produced by `ToHTTPStatus`;
any other status yields the empty string (in particular the
non-standard 499). -/
def statusText (status : Nat) : String :=
  match assocLookup
    [(400, "Bad Request"), (401, "Unauthorized"), (403, "Forbidden"),
     (404, "Not Found"), (409, "Conflict"), (412, "Precondition Failed"),
     (429, "Too Many Requests"), (500, "Internal Server Error"),
     (501, "Not Implemented"), (503, "Service Unavailable"),
     (504, "Gateway Timeout")] status with
  | some t => t
  | none => ""

/-- One entry of a `ProblemDetail`'s `errors` extension: the JSON object
produced by `herr.toDetailJSON`, tagged with its `type` discriminator. -/
inductive DetailJSON where
  | badRequest (violations : List BadRequestFieldViolation)
  | preconditionFailure (violations : List PreconditionViolation)
  | resourceInfo (resourceType resourceName owner description : String)
  | errorInfo (reason domain : String) (metadata : List (String × String))
deriving DecidableEq

/-- `herr.toDetailJSON`: canonical errx details become tagged JSON
objects; everything else (including proto messages) yields nil. -/
def toDetailJSON : Detail → Option DetailJSON
  | .badRequestDetail v => some (.badRequest v)
  | .preconditionFailureDetail v => some (.preconditionFailure v)
  | .resourceInfoDetail rt rn ow d => some (.resourceInfo rt rn ow d)
  | .errorInfoDetail r d m => some (.errorInfo r d m)
  | _ => none

/-- `herr.LocalizedMsg`. -/
structure LocalizedMsg where
  locale : String
  message : String
deriving DecidableEq

/-- `herr.ProblemDetail` (RFC 9457).  The JSON serialization itself is
not modelled; the structure carries exactly the fields the Go struct
marshals. -/
structure ProblemDetail where
  type_ : String
  title : String
  status : Nat
  detail : String
  instance_ : String
  code : String
  errors : List DetailJSON
  localizedMessage : Option LocalizedMsg
deriving DecidableEq

/-- A `herr.ProblemDetailOption` (`WithInstance` or `WithType`). -/
inductive ProblemDetailOption where
  | withInstance (s : String)
  | withType (s : String)
deriving DecidableEq

/-- Application of one option to a problem detail. -/
def applyOption (p : ProblemDetail) : ProblemDetailOption → ProblemDetail
  | .withInstance s => { p with instance_ := s }
  | .withType s => { p with type_ := s }

/-- `herr.ToProblemDetail`: nil error → nil; otherwise resolve the code,
status, title (status reason phrase, falling back to the code string),
rendered message and converted details, then apply the options. -/
def ToProblemDetail (err : GoError) (opts : List ProblemDetailOption) :
    Option ProblemDetail :=
  if err = .nil then none
  else
    let c := CodeOf err
    let status := ToHTTPStatus c
    let code := if c = "" then Unknown else c
    let title0 := statusText status
    let title := if title0 = "" then code else title0
    let p : ProblemDetail :=
      { type_ := "about:blank", title := title, status := status,
        detail := errorString err, instance_ := "", code := code,
        errors := (DetailsOf err).filterMap toDetailJSON,
        localizedMessage := none }
    some (opts.foldl applyOption p)

/-- `herr.FromProblemDetail`: nil → nil; otherwise a fresh errx node
from the `detail` message and the `code` extension, falling back to the
status-derived code when the extension is empty. -/
def FromProblemDetail : Option ProblemDetail → GoError
  | none => .nil
  | some p =>
      let code := if p.code = "" then herrToErrxCode p.status else p.code
      (New p.detail []).WithCode code

/-- The observable effect of `herr.WriteError` on a response writer:
headers set, status line, and the problem details written as body
payloads (JSON encoding abstracted; `json.Marshal` cannot fail on the
value shapes `ToProblemDetail` produces). -/
structure ResponseWriter where
  headers : List (String × String)
  status : Option Nat
  body : List ProblemDetail
deriving DecidableEq

/-- `herr.writeProblemDetail` on the success path: sets the
problem+json content type, writes the status and the body. -/
def writeProblemDetail (w : ResponseWriter) (p : ProblemDetail) :
    ResponseWriter :=
  { headers := w.headers ++ [("Content-Type", "application/problem+json")],
    status := some p.status,
    body := w.body ++ [p] }

/-- `herr.WriteError`: does nothing if the error is nil. -/
def WriteError (w : ResponseWriter) (err : GoError)
    (opts : List ProblemDetailOption) : ResponseWriter :=
  if err = .nil then w
  else
    match ToProblemDetail err opts with
    | some p => writeProblemDetail w p
    | none => w

/-! ## gerr: gRPC adapter (src/gerr/gerr.go)

gRPC `codes.Code` values are embedded as their numeric values:
OK=0, Canceled=1, Unknown=2, InvalidArgument=3, DeadlineExceeded=4,
NotFound=5, AlreadyExists=6, PermissionDenied=7, ResourceExhausted=8,
FailedPrecondition=9, Aborted=10, OutOfRange=11, Unimplemented=12,
Internal=13, Unavailable=14, DataLoss=15, Unauthenticated=16. -/

/-- The `errxToGRPC` map. -/
def errxToGRPC : List (String × Nat) :=
  [(Canceled, 1), (Unknown, 2), (InvalidArgument, 3), (DeadlineExceeded, 4),
   (NotFound, 5), (AlreadyExists, 6), (PermissionDenied, 7),
   (ResourceExhausted, 8), (FailedPrecondition, 9), (Aborted, 10),
   (OutOfRange, 11), (Unimplemented, 12), (Internal, 13), (Unavailable, 14),
   (DataLoss, 15), (Unauthenticated, 16)]

/-- The `grpcToErrx` map; `codes.OK` maps to the zero code. -/
def grpcToErrx : List (Nat × String) :=
  [(0, ""), (1, Canceled), (2, Unknown), (3, InvalidArgument),
   (4, DeadlineExceeded), (5, NotFound), (6, AlreadyExists),
   (7, PermissionDenied), (8, ResourceExhausted), (9, FailedPrecondition),
   (10, Aborted), (11, OutOfRange), (12, Unimplemented), (13, Internal),
   (14, Unavailable), (15, DataLoss), (16, Unauthenticated)]

/-- `gerr.ToGRPCCode`: unmapped codes fall back to `codes.Unknown` (2). -/
def ToGRPCCode (c : String) : Nat :=
  match assocLookup errxToGRPC c with
  | some gc => gc
  | none => 2

/-- `gerr.ToErrxCode`: unmapped gRPC codes fall back to `errx.Unknown`. -/
def gerrToErrxCode (c : Nat) : String :=
  match assocLookup grpcToErrx c with
  | some ec => ec
  | none => Unknown

/-- `gerr.toProtoDetail`: canonical errx details become `errdetails`
protos, proto messages pass through, everything else yields nil. -/
def gerrToProtoDetail : Detail → Option ProtoDetail
  | .badRequestDetail v => some (.badRequest v)
  | .preconditionFailureDetail v => some (.preconditionFailure v)
  | .resourceInfoDetail rt rn ow d => some (.resourceInfo rt rn ow d)
  | .errorInfoDetail r d m => some (.errorInfo r d m)
  | .proto pm => some pm
  | .otherValue _ => none

/-- A `*status.Status`: gRPC code, message, attached detail protos. -/
structure GrpcStatus where
  code : Nat
  message : String
  details : List ProtoDetail
deriving DecidableEq

/-- `gerr.ToStatus`: nil error → OK status with empty message;
otherwise the mapped code, the rendered message, and the convertible
details (`st.WithDetails` is only called on a non-empty list and never
fails, since the status code is never OK). -/
def ToStatus (err : GoError) : GrpcStatus :=
  if err = .nil then ⟨0, "", []⟩
  else
    let c := CodeOf err
    let st : GrpcStatus := ⟨ToGRPCCode c, errorString err, []⟩
    let protoDetails := (DetailsOf err).filterMap gerrToProtoDetail
    if protoDetails = [] then st else { st with details := protoDetails }

/-- `gerr.FromStatus`: OK status → nil (a nil `*status.Status` also
reports code OK); otherwise a fresh errx node from the status message
and mapped code, with the wire details restored via `WithDetails`. -/
def FromStatus (st : GrpcStatus) : GoError :=
  if st.code = 0 then .nil
  else
    let e := (New st.message []).WithCode (gerrToErrxCode st.code)
    if st.details = [] then e
    else e.WithDetails (st.details.map Detail.proto)

/-! ## cerr: Connect adapter (src/cerr/cerr.go)

`connect.Code` values coincide numerically with the gRPC codes
(Canceled=1 … Unauthenticated=16); 0 is the unused zero value. -/

/-- The `errxToConnect` map. -/
def errxToConnect : List (String × Nat) :=
  [(Canceled, 1), (Unknown, 2), (InvalidArgument, 3), (DeadlineExceeded, 4),
   (NotFound, 5), (AlreadyExists, 6), (PermissionDenied, 7),
   (ResourceExhausted, 8), (FailedPrecondition, 9), (Aborted, 10),
   (OutOfRange, 11), (Unimplemented, 12), (Internal, 13), (Unavailable, 14),
   (DataLoss, 15), (Unauthenticated, 16)]

/-- The `connectToErrx` map; the zero value maps to the zero code. -/
def connectToErrx : List (Nat × String) :=
  [(0, ""), (1, Canceled), (2, Unknown), (3, InvalidArgument),
   (4, DeadlineExceeded), (5, NotFound), (6, AlreadyExists),
   (7, PermissionDenied), (8, ResourceExhausted), (9, FailedPrecondition),
   (10, Aborted), (11, OutOfRange), (12, Unimplemented), (13, Internal),
   (14, Unavailable), (15, DataLoss), (16, Unauthenticated)]

/-- `cerr.ToConnectCode`: unmapped codes fall back to `CodeUnknown` (2). -/
def ToConnectCode (c : String) : Nat :=
  match assocLookup errxToConnect c with
  | some cc => cc
  | none => 2

/-- `cerr.ToErrxCode`: unmapped Connect codes fall back to `errx.Unknown`. -/
def cerrToErrxCode (c : Nat) : String :=
  match assocLookup connectToErrx c with
  | some ec => ec
  | none => Unknown

/-- `cerr.toProtoDetail` (identical to the gerr converter). -/
def cerrToProtoDetail : Detail → Option ProtoDetail
  | .badRequestDetail v => some (.badRequest v)
  | .preconditionFailureDetail v => some (.preconditionFailure v)
  | .resourceInfoDetail rt rn ow d => some (.resourceInfo rt rn ow d)
  | .errorInfoDetail r d m => some (.errorInfo r d m)
  | .proto pm => some pm
  | .otherValue _ => none

/-- A `*connect.Error`: code, message (`connect.NewError(code, err)`
renders `Message()` as `err.Error()`), attached detail protos. -/
structure ConnectError where
  code : Nat
  message : String
  details : List ProtoDetail
deriving DecidableEq

/-- `cerr.ToConnectError`: nil error → nil; otherwise the mapped code,
the rendered message, and the convertible details
(`connect.NewErrorDetail` is modelled as always succeeding). -/
def ToConnectError (err : GoError) : Option ConnectError :=
  if err = .nil then none
  else
    some ⟨ToConnectCode (CodeOf err), errorString err,
          (DetailsOf err).filterMap cerrToProtoDetail⟩

/-- `cerr.FromConnectError`: nil → nil; otherwise a fresh errx node
from the message and mapped code, with the wire details restored
(`d.Value()` decoding is modelled as always succeeding). -/
def FromConnectError : Option ConnectError → GoError
  | none => .nil
  | some ce =>
      let e := (New ce.message []).WithCode (cerrToErrxCode ce.code)
      if ce.details = [] then e
      else e.WithDetails (ce.details.map Detail.proto)

/-! ## Heap-level model of the copy-on-write mutators

The pure `GoError` model above cannot express that a mutator leaves the
*receiver* untouched, so the mutators are also modelled at the level of
Go's memory: an `*errx.Error` is an index into a heap of struct cells,
`cp := *e` is a shallow struct copy, and `&cp` is a fresh allocation at
the end of the heap.  The `cause` and `stack` fields hold references
(the cause may be any Go error value; the stack is captured externally
by `runtime.Callers`). -/

/-- The `errx.Error` struct as laid out in memory: `cause` and `stack`
are references (`none` = Go nil pointer/interface). -/
structure Cell where
  msg : String
  cause : Option Nat
  code : String
  fields : List Attr
  stack : Option Nat
  details : List Detail
deriving DecidableEq

/-- A heap of `errx.Error` cells; a pointer is an index. -/
abbrev Heap := List Cell

/-- `(*Error).With` on the heap: copy the struct, append the new fields
into a freshly allocated slice, allocate the copy. -/
def heapWith (h : Heap) (p : Nat) (args : List Arg) : Heap × Nat :=
  match h[p]? with
  | some c => (h ++ [{ c with fields := c.fields ++ argsToAttrs args }], h.length)
  | none => (h, p)

/-- `(*Error).WithCode` on the heap. -/
def heapWithCode (h : Heap) (p : Nat) (code : String) : Heap × Nat :=
  match h[p]? with
  | some c => (h ++ [{ c with code := code }], h.length)
  | none => (h, p)

/-- `(*Error).WithDetails` on the heap: the details are appended into a
freshly allocated slice. -/
def heapWithDetails (h : Heap) (p : Nat) (ds : List Detail) : Heap × Nat :=
  match h[p]? with
  | some c => (h ++ [{ c with details := c.details ++ ds }], h.length)
  | none => (h, p)

/-- `(*Error).WithStack` on the heap: `captureStack` allocates a fresh
immutable `Stack` (modelled by the reference `sp`). -/
def heapWithStack (h : Heap) (p : Nat) (sp : Nat) : Heap × Nat :=
  match h[p]? with
  | some c => (h ++ [{ c with stack := some sp }], h.length)
  | none => (h, p)

/-! ## Locale resolution (src/locale.go)

Quality values are represented exactly, in thousandths (`q=0.9` ↦ 900;
a tag without a parameter has the default weight 1000). -/

/-- Splits a character list at a separator, like `strings.Split`. -/
def splitOnChar (sep : Char) : List Char → List (List Char)
  | [] => [[]]
  | c :: rest =>
      let r := splitOnChar sep rest
      if c = sep then [] :: r
      else
        match r with
        | h :: t => (c :: h) :: t
        | [] => [[c]]

/-- Drops surrounding spaces. -/
def trimSpaces (cs : List Char) : List Char :=
  ((cs.dropWhile (· = ' ')).reverse.dropWhile (· = ' ')).reverse

/-- A character admissible in a BCP 47 language-tag entry. -/
def isTagChar (c : Char) : Bool :=
  c.isAlpha || c.isDigit || c = '-' || c = '*'

/-- A syntactically acceptable language tag: non-empty, tag characters
only. -/
def validTag (cs : List Char) : Bool :=
  !cs.isEmpty && cs.all isTagChar

/-- The value of up to three fraction digits, in thousandths. -/
def fracValue : List Char → Option Nat
  | [d₁] =>
      if d₁.isDigit then some ((d₁.toNat - 48) * 100) else none
  | [d₁, d₂] =>
      if d₁.isDigit && d₂.isDigit then
        some ((d₁.toNat - 48) * 100 + (d₂.toNat - 48) * 10)
      else none
  | [d₁, d₂, d₃] =>
      if d₁.isDigit && d₂.isDigit && d₃.isDigit then
        some ((d₁.toNat - 48) * 100 + (d₂.toNat - 48) * 10 + (d₃.toNat - 48))
      else none
  | _ => none

/-- A quality value `0`, `1`, `0.xxx` or `1.000`, in thousandths. -/
def parseQuality : List Char → Option Nat
  | ['0'] => some 0
  | ['1'] => some 1000
  | '0' :: '.' :: ds => fracValue ds
  | '1' :: '.' :: ds =>
      if !ds.isEmpty && ds.length ≤ 3 && ds.all (· = '0') then some 1000
      else none
  | _ => none

/-- One weighted entry `tag` or `tag;q=value`. -/
def parseEntry (cs : List Char) : Option (String × Nat) :=
  match (splitOnChar ';' cs).map trimSpaces with
  | [t] => if validTag t then some (⟨t⟩, 1000) else none
  | [t, qp] =>
      if validTag t then
        match qp with
        | 'q' :: '=' :: rest => (parseQuality rest).map (fun q => (⟨t⟩, q))
        | _ => none
      else none
  | _ => none

/-- All entries, or a failure if any entry is malformed. -/
def parseEntries : List (List Char) → Option (List (String × Nat))
  | [] => some []
  | e :: rest =>
      match parseEntry e, parseEntries rest with
      | some p, some ps => some (p :: ps)
      | _, _ => none

/-- Modelled from the spec: `golang.org/x/text/language.ParseAcceptLanguage`
(an external library, not part of this repository's sources) parses a
standard weighted-language-tag list into tags with quality values,
failing on malformed input; the empty header has no entries and fails.
Tag canonicalization is the identity on well-formed tags. -/
def parseAcceptLanguage (s : String) : Option (List (String × Nat)) :=
  parseEntries ((splitOnChar ',' s.data).map trimSpaces)

/-- One iteration of the selection loop: `if qs[i] > qs[best] { best = i }`. -/
def bestStep (qs : List Nat) (best i : Nat) : Nat :=
  if qs.getD best 0 < qs.getD i 0 then i else best

/-- The selection loop of `errx.ParseAcceptLanguage` (src/locale.go):
`best := 0; for i := 1; i < len(tags); i++ { if qs[i] > qs[best] ... }`.
The fold starts at index 0, where the strict comparison cannot fire, so
it coincides with the source loop. -/
def bestIdx (qs : List Nat) : Nat :=
  (List.range qs.length).foldl (bestStep qs) 0

/-- `errx.ParseAcceptLanguage`: empty result or parse failure yields
the empty string, otherwise the tag with the highest quality value. -/
def ParseAcceptLanguage (s : String) : String :=
  match parseAcceptLanguage s with
  | none => ""
  | some [] => ""
  | some ts => (ts.getD (bestIdx (ts.map Prod.snd)) ("", 0)).1

/-- Does no node in the chain carry a non-empty code? -/
def hasNoCode : GoError → Bool
  | .nil => true
  | .errx _ code _ _ _ cause => code == "" && hasNoCode cause
  | .sentinel _ code => code == ""
  | .foreign _ cause => hasNoCode cause

/-! ## Helper lemmas -/

theorem codeOf_empty_of_hasNoCode (e : GoError) (h : hasNoCode e = true) :
    CodeOf e = "" := by
  induction e with
  | nil => rfl
  | errx msg code fields details stack cause ih =>
      simp only [hasNoCode, Bool.and_eq_true, beq_iff_eq] at h
      simp [CodeOf, h.1, ih h.2]
  | sentinel msg code =>
      simpa [hasNoCode, CodeOf] using h
  | foreign msg cause ih =>
      simpa [hasNoCode, CodeOf] using ih (by simpa [hasNoCode] using h)

theorem codeOf_errx_nilcause (msg c : String) (f : List Attr)
    (d : List Detail) (s : Bool) : CodeOf (.errx msg c f d s .nil) = c := by
  by_cases hc : c = "" <;> simp [CodeOf, hc]

theorem errorString_errx_nilcause (msg c : String) (f : List Attr)
    (d : List Detail) (s : Bool) : errorString (.errx msg c f d s .nil) = msg := by
  simp [errorString]

theorem fromStatus_spec (st : GrpcStatus) (h : st.code ≠ 0) :
    CodeOf (FromStatus st) = gerrToErrxCode st.code ∧
    errorString (FromStatus st) = st.message ∧
    DetailsOf (FromStatus st) = st.details.map Detail.proto := by
  unfold FromStatus
  rw [if_neg h]
  by_cases hd : st.details = [] <;>
    simp [hd, New, GoError.WithCode, GoError.WithDetails, argsToAttrs,
          codeOf_errx_nilcause, errorString_errx_nilcause, DetailsOf]

theorem fromConnect_spec (ce : ConnectError) :
    CodeOf (FromConnectError (some ce)) = cerrToErrxCode ce.code ∧
    errorString (FromConnectError (some ce)) = ce.message ∧
    DetailsOf (FromConnectError (some ce)) = ce.details.map Detail.proto := by
  unfold FromConnectError
  by_cases hd : ce.details = [] <;>
    simp [hd, New, GoError.WithCode, GoError.WithDetails, argsToAttrs,
          codeOf_errx_nilcause, errorString_errx_nilcause, DetailsOf]

theorem toStatus_code (e : GoError) (h : e ≠ .nil) :
    (ToStatus e).code = ToGRPCCode (CodeOf e) := by
  unfold ToStatus
  rw [if_neg h]
  dsimp only
  split <;> rfl

theorem toStatus_message (e : GoError) (h : e ≠ .nil) :
    (ToStatus e).message = errorString e := by
  unfold ToStatus
  rw [if_neg h]
  dsimp only
  split <;> rfl

theorem toConnect_eval (e : GoError) (h : e ≠ .nil) :
    ToConnectError e = some ⟨ToConnectCode (CodeOf e), errorString e,
      (DetailsOf e).filterMap cerrToProtoDetail⟩ := by
  unfold ToConnectError
  rw [if_neg h]

theorem toProblemDetail_eval (e : GoError) (h : e ≠ .nil) :
    ToProblemDetail e [] = some
      { type_ := "about:blank",
        title := if statusText (ToHTTPStatus (CodeOf e)) = ""
                 then (if CodeOf e = "" then Unknown else CodeOf e)
                 else statusText (ToHTTPStatus (CodeOf e)),
        status := ToHTTPStatus (CodeOf e),
        detail := errorString e, instance_ := "",
        code := if CodeOf e = "" then Unknown else CodeOf e,
        errors := (DetailsOf e).filterMap toDetailJSON,
        localizedMessage := none } := by
  unfold ToProblemDetail
  rw [if_neg h]
  rfl

/-! ## Claims -/

/-- Claim C8: a nil error is a first-class no-op everywhere: `Wrap` and
`Wrapf` return nil, `ToProblemDetail` and `ToConnectError` return nil,
`ToStatus` returns an OK status with empty message, and `WriteError`
writes nothing to the response. -/
theorem claim_C8_nil_noop (args : List Arg) (formatted : String)
    (opts : List ProblemDetailOption) (w : ResponseWriter) :
    Wrap .nil args = .nil ∧ Wrapf .nil formatted = .nil ∧
    ToProblemDetail .nil opts = none ∧ ToConnectError .nil = none ∧
    ToStatus .nil = ⟨0, "", []⟩ ∧ WriteError w .nil opts = w := by
  refine ⟨rfl, rfl, rfl, rfl, rfl, rfl⟩

/-- Claim C10: on the gRPC and Connect reverse mappings the OK / zero
status maps to the empty (unset) code, not to "unknown", while every
status code absent from the reverse table maps to "unknown". -/
theorem claim_C10_zero_code (n m : Nat)
    (hn : assocLookup grpcToErrx n = none)
    (hm : assocLookup connectToErrx m = none) :
    gerrToErrxCode 0 = "" ∧ cerrToErrxCode 0 = "" ∧
    gerrToErrxCode n = Unknown ∧ cerrToErrxCode m = Unknown := by
  refine ⟨rfl, rfl, ?_, ?_⟩
  · unfold gerrToErrxCode
    rw [hn]
  · unfold cerrToErrxCode
    rw [hm]

/-- Witness for C10 at the concrete unmapped status code 99. -/
theorem claim_C10_zero_code_witness :
    gerrToErrxCode 0 = "" ∧ cerrToErrxCode 0 = "" ∧
    gerrToErrxCode 99 = Unknown ∧ cerrToErrxCode 99 = Unknown :=
  claim_C10_zero_code 99 99 (by decide) (by decide)

/-- Claim C2, counterexample: the HTTP round trip is not the identity
on all 16 well-known codes: out_of_range maps forward to 400 but 400
maps back to invalid_argument. -/
theorem claim_C2_counterexample :
    herrToErrxCode (ToHTTPStatus OutOfRange) ≠ OutOfRange := by decide

/-- The 12 well-known codes on which the HTTP round trip is the
identity (the canonical representative of each mapped status). -/
def httpRoundTripCodes : List String :=
  [InvalidArgument, Unauthenticated, PermissionDenied, NotFound,
   AlreadyExists, FailedPrecondition, ResourceExhausted, Canceled,
   Internal, Unimplemented, Unavailable, DeadlineExceeded]

/-- Claim C2, amended: the HTTP status round trip
`ToErrxCode(ToHTTPStatus(c)) = c` is the identity on the 12 codes that
are the canonical representative of their status (including canceled
via the non-standard 499); the remaining four well-known codes collapse
to the representative sharing their status (out_of_range ↦
invalid_argument, aborted ↦ already_exists, unknown and data_loss ↦
internal).  `httpToErrx` is a right inverse of `errxToHTTP` (not its
exact inverse), and any status with no reverse entry maps to
"unknown". -/
theorem claim_C2_amended :
    (∀ c ∈ httpRoundTripCodes, herrToErrxCode (ToHTTPStatus c) = c) ∧
    herrToErrxCode (ToHTTPStatus OutOfRange) = InvalidArgument ∧
    herrToErrxCode (ToHTTPStatus Aborted) = AlreadyExists ∧
    herrToErrxCode (ToHTTPStatus Unknown) = Internal ∧
    herrToErrxCode (ToHTTPStatus DataLoss) = Internal ∧
    (∀ p ∈ httpToErrx, ToHTTPStatus p.2 = p.1) ∧
    (∀ s : Nat, assocLookup httpToErrx s = none →
      herrToErrxCode s = Unknown) := by
  refine ⟨by decide, by decide, by decide, by decide, by decide, by decide, ?_⟩
  intro s hs
  unfold herrToErrxCode
  rw [hs]

/-- Witness for C2's amended statement: the round trip fixes not_found
and canceled, and the teapot status 418 has no reverse entry. -/
theorem claim_C2_amended_witness :
    herrToErrxCode (ToHTTPStatus NotFound) = NotFound ∧
    herrToErrxCode (ToHTTPStatus Canceled) = Canceled ∧
    herrToErrxCode 418 = Unknown :=
  ⟨claim_C2_amended.1 NotFound (by decide),
   claim_C2_amended.1 Canceled (by decide),
   claim_C2_amended.2.2.2.2.2.2 418 (by decide)⟩

/-- Claim C3: `Code()` on an error-chain node returns the node's own
code when non-empty, otherwise the code obtained from the cause chain,
and the empty code when no node in the chain carries one; a wrapper
without an explicit code inherits the innermost code, and `WithCode` on
the wrapper overrides it. -/
theorem claim_C3_code_resolution :
    (∀ (msg code : String) (fields : List Attr) (details : List Detail)
       (stack : Bool) (cause : GoError),
      (code ≠ "" →
        (GoError.errx msg code fields details stack cause).Code = code) ∧
      (code = "" →
        (GoError.errx msg code fields details stack cause).Code =
          CodeOf cause) ∧
      (hasNoCode (GoError.errx msg code fields details stack cause) = true →
        (GoError.errx msg code fields details stack cause).Code = "")) ∧
    (∀ A B : String, A ≠ "" → B ≠ "" →
      (Wrap ((New "inner" []).WithCode A) []).Code = A ∧
      ((Wrap ((New "inner" []).WithCode A) []).WithCode B).Code = B) := by
  constructor
  · intro msg code fields details stack cause
    refine ⟨fun h => by simp [GoError.Code, h],
            fun h => by simp [GoError.Code, h], fun h => ?_⟩
    have h2 : CodeOf (GoError.errx msg code fields details stack cause) = "" :=
      codeOf_empty_of_hasNoCode _ h
    simpa [GoError.Code, CodeOf] using h2
  · intro A B hA hB
    constructor
    · simp [Wrap, New, argsToAttrs, GoError.WithCode, GoError.Code, CodeOf, hA]
    · simp [Wrap, New, argsToAttrs, GoError.WithCode, GoError.Code, CodeOf, hB]

/-- Witness for C3 at a concrete wrapper chain with codes not_found and
internal. -/
theorem claim_C3_code_resolution_witness :
    ((GoError.errx "m" "not_found" [] [] false .nil).Code = "not_found" ∧
     (GoError.errx "m" "" [] [] false
        (GoError.sentinel "s" "internal")).Code = "internal" ∧
     (GoError.errx "m" "" [] [] false (GoError.foreign "f" .nil)).Code = "") ∧
    ((Wrap ((New "inner" []).WithCode "not_found") []).Code = "not_found" ∧
     ((Wrap ((New "inner" []).WithCode "not_found") []).WithCode
        "internal").Code = "internal") := by
  constructor
  · refine ⟨(claim_C3_code_resolution.1 "m" "not_found" [] [] false .nil).1
        (by decide), ?_, ?_⟩
    · exact ((claim_C3_code_resolution.1 "m" "" [] [] false
        (GoError.sentinel "s" "internal")).2.1 rfl).trans (by decide)
    · exact (claim_C3_code_resolution.1 "m" "" [] [] false
        (GoError.foreign "f" .nil)).2.2 (by decide)
  · exact claim_C3_code_resolution.2 "not_found" "internal"
      (by decide) (by decide)

/-- Claim C5: `ToProblemDetail` on `New("user not found").WithCode(NotFound)`
yields exactly type "about:blank", title "Not Found", status 404, detail
"user not found", code "not_found"; in general the title is the HTTP
status reason phrase falling back to the code string when the status has
no standard phrase (status 499 yields title "canceled"), the detail is
the rendered message, and the code extension falls back to "unknown"
when the resolved code is empty. -/
theorem claim_C5_problem_detail :
    ToProblemDetail ((New "user not found" []).WithCode NotFound) [] =
      some { type_ := "about:blank", title := "Not Found", status := 404,
             detail := "user not found", instance_ := "",
             code := "not_found", errors := [], localizedMessage := none } ∧
    ToProblemDetail ((New "request canceled" []).WithCode Canceled) [] =
      some { type_ := "about:blank", title := "canceled", status := 499,
             detail := "request canceled", instance_ := "",
             code := "canceled", errors := [], localizedMessage := none } ∧
    (∀ e : GoError, e ≠ .nil → ∀ p, ToProblemDetail e [] = some p →
      p.detail = errorString e ∧
      p.code = (if CodeOf e = "" then Unknown else CodeOf e) ∧
      p.status = ToHTTPStatus (CodeOf e) ∧
      p.title = (if statusText (ToHTTPStatus (CodeOf e)) = "" then p.code
                 else statusText (ToHTTPStatus (CodeOf e)))) := by
  refine ⟨by decide, by decide, ?_⟩
  intro e he p hp
  rw [toProblemDetail_eval e he] at hp
  obtain rfl : p = _ := (Option.some.inj hp).symm
  exact ⟨rfl, rfl, rfl, rfl⟩

/-- Witness for C5's general part at `New("x").WithCode(Internal)` and
at a code-less error (code extension falls back to "unknown"). -/
theorem claim_C5_problem_detail_witness :
    (∀ p, ToProblemDetail ((New "x" []).WithCode Internal) [] = some p →
      p.detail = "x" ∧ p.code = "internal" ∧ p.status = 500 ∧
      p.title = "Internal Server Error") ∧
    (∀ p, ToProblemDetail (New "y" []) [] = some p → p.code = "unknown") := by
  constructor
  · intro p hp
    have h := claim_C5_problem_detail.2.2 ((New "x" []).WithCode Internal)
      (by decide) p hp
    refine ⟨h.1.trans (by decide), h.2.1.trans (by decide),
      h.2.2.1.trans (by decide),
      h.2.2.2.trans ((if_neg (by decide)).trans (by decide))⟩
  · intro p hp
    have h := claim_C5_problem_detail.2.2 (New "y" []) (by decide) p hp
    exact h.2.1.trans (by decide)

/-- Claim C7, counterexample: `FromProblemDetail` does not restore the
recognized details carried by the wire payload: a problem detail whose
`errors` extension holds a BadRequest entry yields an error with no
details at all. -/
theorem claim_C7_counterexample :
    ({ type_ := "about:blank", title := "Not Found", status := 404,
       detail := "m", instance_ := "", code := "not_found",
       errors := [.badRequest [⟨"email", "invalid"⟩]],
       localizedMessage := none } : ProblemDetail).errors ≠ [] ∧
    DetailsOf (FromProblemDetail (some
      { type_ := "about:blank", title := "Not Found", status := 404,
        detail := "m", instance_ := "", code := "not_found",
        errors := [.badRequest [⟨"email", "invalid"⟩]],
        localizedMessage := none })) = [] := by decide

/-- Claim C7, amended: `FromStatus` returns nil for an OK status (a nil
`*status.Status` also reports OK) and otherwise builds a node from the
status message and mapped code, restoring the wire details;
`FromConnectError` does the same with nil for a nil input;
`FromProblemDetail` returns nil for a nil input and builds a node from
the `detail` message and the code (the `code` extension, falling back to
the status-derived code), but restores no details. -/
theorem claim_C7_reverse_conversions :
    (∀ (m : String) (ds : List ProtoDetail), FromStatus ⟨0, m, ds⟩ = .nil) ∧
    (∀ st : GrpcStatus, st.code ≠ 0 →
      CodeOf (FromStatus st) = gerrToErrxCode st.code ∧
      errorString (FromStatus st) = st.message ∧
      DetailsOf (FromStatus st) = st.details.map Detail.proto) ∧
    FromConnectError none = .nil ∧
    (∀ ce : ConnectError,
      CodeOf (FromConnectError (some ce)) = cerrToErrxCode ce.code ∧
      errorString (FromConnectError (some ce)) = ce.message ∧
      DetailsOf (FromConnectError (some ce)) = ce.details.map Detail.proto) ∧
    FromProblemDetail none = .nil ∧
    (∀ p : ProblemDetail,
      errorString (FromProblemDetail (some p)) = p.detail ∧
      CodeOf (FromProblemDetail (some p)) =
        (if p.code = "" then herrToErrxCode p.status else p.code) ∧
      DetailsOf (FromProblemDetail (some p)) = []) := by
  refine ⟨fun m ds => rfl, fromStatus_spec, rfl, fromConnect_spec, rfl, ?_⟩
  intro p
  unfold FromProblemDetail
  simp [New, GoError.WithCode, argsToAttrs, codeOf_errx_nilcause,
        errorString_errx_nilcause, DetailsOf]

/-- Witness for C7 at a concrete non-OK status carrying one detail. -/
theorem claim_C7_reverse_conversions_witness :
    FromStatus ⟨0, "ok", []⟩ = .nil ∧
    (CodeOf (FromStatus ⟨5, "boom", [.badRequest [⟨"email", "invalid"⟩]]⟩) =
        gerrToErrxCode 5 ∧
      errorString (FromStatus ⟨5, "boom", [.badRequest [⟨"email", "invalid"⟩]]⟩) =
        "boom" ∧
      DetailsOf (FromStatus ⟨5, "boom", [.badRequest [⟨"email", "invalid"⟩]]⟩) =
        [.proto (.badRequest [⟨"email", "invalid"⟩])]) := by
  refine ⟨claim_C7_reverse_conversions.1 "ok" [], ?_⟩
  have h := claim_C7_reverse_conversions.2.1
    ⟨5, "boom", [.badRequest [⟨"email", "invalid"⟩]]⟩ (by decide)
  exact ⟨h.1, h.2.1, h.2.2⟩

/-- Claim C1: for every error whose code is one of the 16 well-known
codes, converting to the wire representation and back preserves the code
and the rendered message on all three adapters (gRPC, Connect, HTTP). -/
theorem claim_C1_roundtrip_wellknown (e : GoError)
    (h : CodeOf e ∈ wellKnownCodes) :
    (CodeOf (FromStatus (ToStatus e)) = CodeOf e ∧
      errorString (FromStatus (ToStatus e)) = errorString e) ∧
    (CodeOf (FromConnectError (ToConnectError e)) = CodeOf e ∧
      errorString (FromConnectError (ToConnectError e)) = errorString e) ∧
    (CodeOf (FromProblemDetail (ToProblemDetail e [])) = CodeOf e ∧
      errorString (FromProblemDetail (ToProblemDetail e [])) =
        errorString e) := by
  have hne : e ≠ .nil := by
    intro h0
    rw [h0] at h
    exact absurd h (by decide)
  have key : ∀ c ∈ wellKnownCodes, c ≠ "" ∧ ToGRPCCode c ≠ 0 ∧
      gerrToErrxCode (ToGRPCCode c) = c ∧ ToConnectCode c ≠ 0 ∧
      cerrToErrxCode (ToConnectCode c) = c := by decide
  obtain ⟨hc0, hg0, hg, hcc0, hcc⟩ := key _ h
  refine ⟨?_, ?_, ?_⟩
  · have h1 := fromStatus_spec (ToStatus e)
      (by rw [toStatus_code e hne]; exact hg0)
    rw [toStatus_code e hne, toStatus_message e hne] at h1
    exact ⟨h1.1.trans hg, h1.2.1⟩
  · rw [toConnect_eval e hne]
    have h1 := fromConnect_spec ⟨ToConnectCode (CodeOf e), errorString e,
      (DetailsOf e).filterMap cerrToProtoDetail⟩
    exact ⟨h1.1.trans hcc, h1.2.1⟩
  · rw [toProblemDetail_eval e hne]
    unfold FromProblemDetail
    simp [hc0, New, GoError.WithCode, argsToAttrs, codeOf_errx_nilcause,
          errorString_errx_nilcause]

/-- Witness for C1 at `New("user not found").WithCode(NotFound)`. -/
theorem claim_C1_roundtrip_wellknown_witness :
    CodeOf (FromStatus (ToStatus
      ((New "user not found" []).WithCode NotFound))) = NotFound ∧
    errorString (FromConnectError (ToConnectError
      ((New "user not found" []).WithCode NotFound))) = "user not found" ∧
    CodeOf (FromProblemDetail (ToProblemDetail
      ((New "user not found" []).WithCode NotFound) [])) = NotFound := by
  have h := claim_C1_roundtrip_wellknown
    ((New "user not found" []).WithCode NotFound) (by decide)
  exact ⟨h.1.1.trans (by decide), h.2.1.2.trans (by decide),
    h.2.2.1.trans (by decide)⟩

/-- Claim C6, counterexample: `errors.As` unwraps through a foreign
error that exposes `Unwrap`, so fields and details of an errx node
located *behind* a foreign error do appear in `Fields`/`DetailsOf` —
the foreign error does not stop the walk. -/
theorem claim_C6_counterexample :
    (⟨"k1", .str "v1"⟩ : Attr) ∈ Fields
      (.errx "outer" "" [⟨"k2", .str "v2"⟩] [.otherValue "d2"] false
        (.foreign "mid"
          (.errx "inner" "" [⟨"k1", .str "v1"⟩] [.otherValue "d1"] false
            .nil))) ∧
    Detail.otherValue "d1" ∈ DetailsOf
      (.errx "outer" "" [⟨"k2", .str "v2"⟩] [.otherValue "d2"] false
        (.foreign "mid"
          (.errx "inner" "" [⟨"k1", .str "v1"⟩] [.otherValue "d1"] false
            .nil))) := by decide

/-- The per-node field lists of every errx node in the chain,
outermost first, written as the spec describes the walk: foreign nodes
contribute nothing but are unwrapped through. -/
def errxFieldLists : GoError → List (List Attr)
  | .nil => []
  | .errx _ _ fields _ _ cause => fields :: errxFieldLists cause
  | .sentinel _ _ => []
  | .foreign _ cause => errxFieldLists cause

/-- The per-node detail lists of every errx node in the chain,
outermost first. -/
def errxDetailLists : GoError → List (List Detail)
  | .nil => []
  | .errx _ _ _ details _ cause => details :: errxDetailLists cause
  | .sentinel _ _ => []
  | .foreign _ cause => errxDetailLists cause

/-- Claim C6, amended: `Fields`/`DetailsOf` concatenate each errx
node's own fields/details in outermost-to-innermost order over the
*entire* unwrap chain — including errx nodes located behind foreign
errors that expose their cause via `Unwrap`; the walk stops only when
no errx node is reachable from the remaining chain. -/
theorem claim_C6_flattening (e : GoError) :
    Fields e = (errxFieldLists e).flatten ∧
    DetailsOf e = (errxDetailLists e).flatten := by
  induction e with
  | nil => exact ⟨rfl, rfl⟩
  | errx msg code fields details stack cause ih =>
      simp [Fields, DetailsOf, errxFieldLists, errxDetailLists, ih.1, ih.2]
  | sentinel msg code => exact ⟨rfl, rfl⟩
  | foreign msg cause ih =>
      simpa [Fields, DetailsOf, errxFieldLists, errxDetailLists] using ih

/-- The frame condition of a copy-on-write mutator run on heap `h` at
receiver `p`, with result `r = (new heap, new pointer)`: every cell of
the old heap — in particular the receiver — is unchanged, the result is
a fresh allocation, and the new node shares the receiver's cause
reference. -/
def mutatorFrame (h : Heap) (p : Nat) (r : Heap × Nat) : Prop :=
  (∀ q, q < h.length → r.1[q]? = h[q]?) ∧
  r.2 = h.length ∧
  (r.1[r.2]?).map Cell.cause = (h[p]?).map Cell.cause

theorem mutatorFrame_append (h : Heap) (p : Nat) (c c' : Cell)
    (hc : h[p]? = some c) (hcause : c'.cause = c.cause) :
    mutatorFrame h p (h ++ [c'], h.length) := by
  refine ⟨fun q hq => List.getElem?_append_left hq, rfl, ?_⟩
  rw [List.getElem?_concat_length, hc]
  simp [hcause]

/-- Claim C4: every mutator (`With`, `WithCode`, `WithDetails`,
`WithStack`) allocates a new node that shares the same cause reference
and leaves every previously published node — in particular the
receiver, with all its fields — unchanged. -/
theorem claim_C4_mutators_copy_on_write (h : Heap) (p : Nat)
    (hp : p < h.length) (args : List Arg) (code : String)
    (ds : List Detail) (sp : Nat) :
    mutatorFrame h p (heapWith h p args) ∧
    mutatorFrame h p (heapWithCode h p code) ∧
    mutatorFrame h p (heapWithDetails h p ds) ∧
    mutatorFrame h p (heapWithStack h p sp) := by
  have hc : h[p]? = some h[p] := List.getElem?_eq_getElem hp
  refine ⟨?_, ?_, ?_, ?_⟩
  · unfold heapWith
    rw [hc]
    exact mutatorFrame_append h p _ _ hc rfl
  · unfold heapWithCode
    rw [hc]
    exact mutatorFrame_append h p _ _ hc rfl
  · unfold heapWithDetails
    rw [hc]
    exact mutatorFrame_append h p _ _ hc rfl
  · unfold heapWithStack
    rw [hc]
    exact mutatorFrame_append h p _ _ hc rfl

/-- Witness for C4 on a one-cell heap: the receiver cell is untouched
and the fresh node shares its cause reference. -/
theorem claim_C4_mutators_copy_on_write_witness :
    ((heapWithDetails [⟨"m", some 7, "c", [⟨"k", .str "v"⟩], none,
        [.otherValue "d"]⟩] 0 [.otherValue "d2"]).1[0]? =
      some ⟨"m", some 7, "c", [⟨"k", .str "v"⟩], none, [.otherValue "d"]⟩) ∧
    ((heapWithDetails [⟨"m", some 7, "c", [⟨"k", .str "v"⟩], none,
        [.otherValue "d"]⟩] 0 [.otherValue "d2"]).2 = 1) ∧
    (((heapWithCode [⟨"m", some 7, "c", [⟨"k", .str "v"⟩], none,
        [.otherValue "d"]⟩] 0 "c2").1[1]?).map Cell.cause = some (some 7)) := by
  have h := claim_C4_mutators_copy_on_write
    [⟨"m", some 7, "c", [⟨"k", .str "v"⟩], none, [.otherValue "d"]⟩] 0
    (by decide) [] "c2" [.otherValue "d2"] 0
  refine ⟨(h.2.2.1.1 0 (by decide)).trans (by decide), h.2.2.1.2.1, ?_⟩
  have h2 := h.2.1.2.2
  rw [h.2.1.2.1] at h2
  exact h2.trans (by decide)

theorem bestStep_foldl_inv (qs : List Nat) (n : Nat) :
    ((List.range n).foldl (bestStep qs) 0 = 0 ∨
      (List.range n).foldl (bestStep qs) 0 < n) ∧
    (∀ i, i < n →
      qs.getD i 0 ≤ qs.getD ((List.range n).foldl (bestStep qs) 0) 0) ∧
    (∀ j, j < (List.range n).foldl (bestStep qs) 0 →
      qs.getD j 0 < qs.getD ((List.range n).foldl (bestStep qs) 0) 0) := by
  induction n with
  | zero => simp
  | succ n ih =>
      rw [List.range_succ, List.foldl_append, List.foldl_cons, List.foldl_nil]
      obtain ⟨hb01, hmax, hstrict⟩ := ih
      set b := (List.range n).foldl (bestStep qs) 0 with hbdef
      unfold bestStep
      by_cases hlt : qs.getD b 0 < qs.getD n 0
      · rw [if_pos hlt]
        refine ⟨Or.inr (Nat.lt_succ_self n), ?_, ?_⟩
        · intro i hi
          rcases Nat.lt_succ_iff_lt_or_eq.mp hi with hi' | rfl
          · exact le_of_lt (lt_of_le_of_lt (hmax i hi') hlt)
          · exact le_refl _
        · intro j hj
          exact lt_of_le_of_lt (hmax j hj) hlt
      · rw [if_neg hlt]
        refine ⟨?_, ?_, hstrict⟩
        · rcases hb01 with h0 | h1
          · exact Or.inl h0
          · exact Or.inr (Nat.lt_succ_of_lt h1)
        · intro i hi
          rcases Nat.lt_succ_iff_lt_or_eq.mp hi with hi' | rfl
          · exact hmax i hi'
          · exact Nat.not_lt.mp hlt

theorem bestIdx_lt_length (qs : List Nat) (h : qs ≠ []) :
    bestIdx qs < qs.length := by
  rcases (bestStep_foldl_inv qs qs.length).1 with h0 | h1
  · rw [bestIdx, h0]
    exact List.length_pos.mpr h
  · exact h1

theorem bestIdx_is_max (qs : List Nat) :
    ∀ i, i < qs.length → qs.getD i 0 ≤ qs.getD (bestIdx qs) 0 :=
  (bestStep_foldl_inv qs qs.length).2.1

theorem bestIdx_leftmost (qs : List Nat) :
    ∀ j, j < bestIdx qs → qs.getD j 0 < qs.getD (bestIdx qs) 0 :=
  (bestStep_foldl_inv qs qs.length).2.2

/-- Claim C9: `ParseAcceptLanguage` returns the language tag with the
strictly highest quality value, taking the leftmost tag on ties, and
returns the empty string on empty input or any parse failure; in
particular the header "ja,en-US;q=0.9,en;q=0.8" yields "ja", and the
empty and malformed headers yield "". -/
theorem claim_C9_parse_accept_language :
    ParseAcceptLanguage "ja,en-US;q=0.9,en;q=0.8" = "ja" ∧
    ParseAcceptLanguage "" = "" ∧
    ParseAcceptLanguage "not a valid header!!!" = "" ∧
    (∀ (s : String) (l : List (String × Nat)),
      parseAcceptLanguage s = some l → l ≠ [] →
      bestIdx (l.map Prod.snd) < l.length ∧
      ParseAcceptLanguage s = (l.getD (bestIdx (l.map Prod.snd)) ("", 0)).1 ∧
      (∀ i, i < l.length →
        (l.map Prod.snd).getD i 0 ≤
          (l.map Prod.snd).getD (bestIdx (l.map Prod.snd)) 0) ∧
      (∀ j, j < bestIdx (l.map Prod.snd) →
        (l.map Prod.snd).getD j 0 <
          (l.map Prod.snd).getD (bestIdx (l.map Prod.snd)) 0)) := by
  refine ⟨by decide, by decide, by decide, ?_⟩
  intro s l hs hl
  have hlen : (l.map Prod.snd).length = l.length := List.length_map _ _
  refine ⟨?_, ?_, ?_, bestIdx_leftmost _⟩
  · rw [← hlen]
    exact bestIdx_lt_length _ (by simpa using hl)
  · unfold ParseAcceptLanguage
    rw [hs]
    cases l with
    | nil => exact absurd rfl hl
    | cons a as => rfl
  · intro i hi
    exact bestIdx_is_max _ i (by rw [hlen]; exact hi)

/-- Witness for C9 at the header "ja,en-US;q=0.9,en;q=0.8", whose
parsed entries are ja (q=1), en-US (q=0.9), en (q=0.8). -/
theorem claim_C9_parse_accept_language_witness :
    parseAcceptLanguage "ja,en-US;q=0.9,en;q=0.8" =
      some [("ja", 1000), ("en-US", 900), ("en", 800)] ∧
    bestIdx [1000, 900, 800] < 3 ∧
    ParseAcceptLanguage "ja,en-US;q=0.9,en;q=0.8" = "ja" := by
  have h := claim_C9_parse_accept_language.2.2.2 "ja,en-US;q=0.9,en;q=0.8"
    [("ja", 1000), ("en-US", 900), ("en", 800)] (by decide) (by decide)
  exact ⟨by decide, h.1, h.2.1.trans (by decide)⟩

end Errx
